import Mathlib

/-!
Shallow embedding of `src/utp_bufferevent.c` (the newnode uTP-to-bufferevent
bridge).

The bridge state (`utp_bufferevent`) mirrors the C struct: an optional uTP
handle (Transport A, modelled as the Bool `utp`, true iff `u->utp != NULL`;
clearing the handle and clearing the uTP userdata back-reference happen
together in `ubev_utp_close`, so one flag models both), the
`utp_read_shutdown` flag, an optional bufferevent (Transport B, `bevState`:
enabled directions and the two evbuffers as byte lists, front = next byte
consumed), and the `other_bev` shared endpoint handle.

Each C callback becomes a function from the bridge state to a `StepRes`:
the successor state (`none` = the bridge was freed by `ubev_cleanup`)
together with effect flags: which uTP primitives were invoked, whether any
primitive was invoked through a NULL handle (`absentOp`), and whether
`ubev_bev_close` was entered with one of its `assert`ed preconditions false
(`bevCloseViol`).  `utp_write` is an external oracle
`W : Nat → List Nat → Int` (call index, chunk ↦ bytes accepted / 0 for
backpressure / negative for error), carried by the events that can trigger
a flush.

Event delivery (`stepEv`/`feasible`) follows the libevent/libutp dispatch
semantics the code relies on: uTP callbacks are delivered only while the
socket's userdata back-reference is set (i.e. `u->utp` present), except
`UTP_STATE_DESTROYING`, which can fire after `utp_close` but then finds a
NULL userdata and touches nothing; bufferevent read/write/eof/error events
are delivered only while the corresponding direction is enabled, and
libevent disables the failing direction before invoking the event callback
on EOF or error.
-/

namespace UtpBev

/-- Transport B endpoint state: the user-visible state of the libevent
bufferevent — which directions are enabled (`bufferevent_get_enabled`) and
the input/output evbuffers, each modelled as the list of bytes it holds. -/
structure bevState where
  enRead : Bool
  enWrite : Bool
  input : List Nat
  output : List Nat
deriving Repr, DecidableEq

/-- The bridge struct `utp_bufferevent` from the C source.  `utp = true` iff
the uTP handle is present (equivalently: the socket's userdata points back at
the bridge); `bev = some b` iff the bufferevent has not been freed. -/
structure utp_bufferevent where
  utp : Bool
  utp_read_shutdown : Bool
  bev : Option bevState
  other_bev : Bool
deriving Repr, DecidableEq

/-- Result of running one callback: successor state (`none` = the bridge was
freed) plus effect flags.  `absentOp` records that some primitive was invoked
through a NULL handle; `bevCloseViol` that `ubev_bev_close` ran with one of
its asserted preconditions false; `assertViol` that some other assert in the
file had a false condition.  `calls`/`acc`/`inAfter`/`werror` expose the
submission loop of `utp_bufferevent_flush`: the chunks passed to `utp_write`,
the bytes drained (accepted), the input buffer contents when the loop ended,
and whether some `utp_write` returned a negative result. -/
structure StepRes where
  state : Option utp_bufferevent
  absentOp : Bool := false
  bevCloseViol : Bool := false
  assertViol : Bool := false
  utpClosedF : Bool := false
  utpShutWRF : Bool := false
  utpShutRDF : Bool := false
  utpReadDrainedF : Bool := false
  fdShutWRF : Bool := false
  werror : Bool := false
  calls : List (List Nat) := []
  acc : List Nat := []
  inAfter : List Nat := []

/-- `ubev_cleanup`: frees the bridge unless one of the two handles is still
present (`if (u->utp || u->bev) return; free(u);`). -/
def ubev_cleanup (u : utp_bufferevent) : Option utp_bufferevent :=
  if u.utp || u.bev.isSome then some u else none

/-- `ubev_utp_close`: clears the uTP userdata back-reference, closes the uTP
socket, sets the handle to NULL and releases `other_bev` if held.  The second
component records that the two uTP primitives were invoked through a NULL
handle (`u->utp == NULL` on entry). -/
def ubev_utp_close (u : utp_bufferevent) : utp_bufferevent × Bool :=
  ({ u with utp := false, other_bev := false }, !u.utp)

/-- The conjunction of the three `assert`s guarding `ubev_bev_close`,
negated: true iff some direction is still enabled or some buffer non-empty,
i.e. iff entering `ubev_bev_close` in state `b` fires an assertion. -/
def bevCloseViolOf (b : bevState) : Bool :=
  b.enRead || b.enWrite || !b.input.isEmpty || !b.output.isEmpty

/-- `ubev_bev_close`: frees the bufferevent.  Returns the new state, whether
the call dereferenced a NULL `u->bev`, and whether an asserted precondition
(both directions disabled, both buffers empty) was violated. -/
def ubev_bev_close (u : utp_bufferevent) : utp_bufferevent × Bool × Bool :=
  match u.bev with
  | none => ({ u with bev := none }, true, false)
  | some b => ({ u with bev := none }, false, bevCloseViolOf b)

/-- `ubev_bev_graceful_close`: if the bufferevent is present, discard its
input, disable reads, and — only if the output buffer is already empty —
disable writes and close it; always followed by `ubev_cleanup`.  The flag is
the `ubev_bev_close` precondition violation (provably never set here). -/
def ubev_bev_graceful_close (u : utp_bufferevent) : Option utp_bufferevent × Bool :=
  match u.bev with
  | none => (ubev_cleanup u, false)
  | some b =>
    let b1 : bevState := { b with input := [], enRead := false }
    if b1.output = [] then
      let b2 : bevState := { b1 with enWrite := false }
      (ubev_cleanup { u with bev := none }, bevCloseViolOf b2)
    else
      (ubev_cleanup { u with bev := some b1 }, false)

/-- Result of the `while` loop of `utp_bufferevent_flush`: remaining input,
the chunks passed to `utp_write`, the bytes drained, and whether a negative
result occurred. -/
structure FlushRes where
  input : List Nat
  calls : List (List Nat)
  acc : List Nat
  werror : Bool
deriving Repr, DecidableEq

/-- The submission loop of `utp_bufferevent_flush`: while the input buffer is
non-empty, pull up a chunk of at most 1500 bytes, submit it via the oracle
`W`, and on a positive result `r` drain `r` bytes and continue; stop on 0
(backpressure, chunk left in place) or negative (error).  `fuel` is an upper
bound on the iteration count; the entry point passes `input.length + 1`,
which never runs out because every continuing iteration drains at least one
byte. -/
def flushLoop (W : Nat → List Nat → Int) : Nat → Nat → List Nat → FlushRes
  | _, 0, input => ⟨input, [], [], false⟩
  | k, fuel+1, input =>
    if input = [] then ⟨input, [], [], false⟩
    else
      let len := min 1500 input.length
      let buf := input.take len
      let r := W k buf
      if r < 0 then ⟨input, [buf], [], true⟩
      else if r = 0 then ⟨input, [buf], [], false⟩
      else
        let rest := flushLoop W (k+1) fuel (input.drop r.toNat)
        ⟨rest.input, buf :: rest.calls, input.take r.toNat ++ rest.acc, rest.werror⟩

/-- `utp_bufferevent_flush`: run the submission loop on the bufferevent's
input; on a write error close the uTP side then gracefully close the
bufferevent; otherwise, if reads are disabled and the input has drained,
either fully close both sides (when writes are also disabled) or half-close
the uTP send direction. -/
def utp_bufferevent_flush (W : Nat → List Nat → Int) (u : utp_bufferevent) : StepRes :=
  match u.bev with
  | none => { state := some u, absentOp := true }
  | some b =>
    let L := flushLoop W 0 (b.input.length + 1) b.input
    let wAbsent := !u.utp && !b.input.isEmpty
    if L.werror then
      let p := ubev_utp_close { u with bev := some { b with input := L.input } }
      let g := ubev_bev_graceful_close p.1
      { state := g.1, absentOp := wAbsent || p.2, bevCloseViol := g.2,
        utpClosedF := true, werror := true, calls := L.calls, acc := L.acc,
        inAfter := L.input }
    else
      let b1 : bevState := { b with input := L.input }
      let u1 : utp_bufferevent := { u with bev := some b1 }
      if b1.enRead = false ∧ b1.input = [] then
        if b1.enWrite = false then
          let p := ubev_utp_close u1
          let q := ubev_bev_close p.1
          { state := ubev_cleanup q.1, absentOp := wAbsent || p.2 || q.2.1,
            bevCloseViol := q.2.2, utpClosedF := true,
            calls := L.calls, acc := L.acc, inAfter := L.input }
        else
          { state := some u1, absentOp := wAbsent || !u.utp, utpShutWRF := true,
            calls := L.calls, acc := L.acc, inAfter := L.input }
      else
        { state := some u1, absentOp := wAbsent,
          calls := L.calls, acc := L.acc, inAfter := L.input }

/-- `utp_on_error`: if the userdata back-reference is set, close the uTP side
and gracefully close the bufferevent. -/
def utp_on_error (u : utp_bufferevent) : StepRes :=
  if u.utp then
    let p := ubev_utp_close u
    let g := ubev_bev_graceful_close p.1
    { state := g.1, absentOp := p.2, bevCloseViol := g.2, utpClosedF := true }
  else
    { state := some u }

/-- `utp_on_read`: if the bufferevent is present and its write direction is
enabled, append the received bytes to its output buffer; otherwise drop
them. -/
def utp_on_read (data : List Nat) (u : utp_bufferevent) : StepRes :=
  match u.bev with
  | some b =>
    if b.enWrite then
      { state := some { u with bev := some { b with output := b.output ++ data } } }
    else
      { state := some u }
  | none => { state := some u }

/-- `ubev_bev_stop_writing`: if reads are still enabled, disable the write
direction and `shutdown(fd, SHUT_WR)`; otherwise assert the input buffer is
empty and run the flush (whose post-loop branch finishes the teardown). -/
def ubev_bev_stop_writing (W : Nat → List Nat → Int) (u : utp_bufferevent) : StepRes :=
  match u.bev with
  | none => { state := some u, absentOp := true }
  | some b =>
    if b.enRead then
      { state := some { u with bev := some { b with enWrite := false } },
        fdShutWRF := true }
    else
      let av := !b.input.isEmpty
      let F := utp_bufferevent_flush W u
      { F with assertViol := F.assertViol || av }

/-- `ubev_read_cb`: assert the uTP handle is present, then flush. -/
def ubev_read_cb (W : Nat → List Nat → Int) (u : utp_bufferevent) : StepRes :=
  let av := !u.utp
  let F := utp_bufferevent_flush W u
  { F with assertViol := F.assertViol || av }

/-- `ubev_write_cb` (run when the output buffer has fully drained): assert
the output buffer is empty; if the uTP handle is absent, close the
bufferevent and run cleanup; otherwise acknowledge drained data to the uTP
side (`utp_read_drained`). -/
def ubev_write_cb (u : utp_bufferevent) : StepRes :=
  match u.bev with
  | none => { state := some u, absentOp := true }
  | some b =>
    let av := !b.output.isEmpty
    if u.utp then
      { state := some u, utpReadDrainedF := true, assertViol := av }
    else
      let q := ubev_bev_close u
      { state := ubev_cleanup q.1, absentOp := q.2.1, bevCloseViol := q.2.2,
        assertViol := av }

/-- The four bufferevent event-callback triggers: error or end-of-stream,
each tagged with the direction that was active when it occurred. -/
inductive BevEvKind where
  | errRead
  | errWrite
  | eofRead
  | eofWrite
deriving Repr, DecidableEq

/-- `ubev_event_cb`: the BEV_EVENT_ERROR branch (direction flags ignored) and
the BEV_EVENT_EOF branches for the writing and reading directions, exactly as
in the source. -/
def ubev_event_cb (k : BevEvKind) (u : utp_bufferevent) : StepRes :=
  match k with
  | .errRead | .errWrite =>
    if u.utp then
      match u.bev with
      | none => { state := some u, absentOp := true }
      | some b =>
        if b.input = [] then
          { state := some { u with utp_read_shutdown := true }, utpShutRDF := true }
        else
          let p := ubev_utp_close u
          let q := ubev_bev_close p.1
          { state := ubev_cleanup q.1, absentOp := p.2 || q.2.1,
            bevCloseViol := q.2.2, utpClosedF := true }
    else
      let q := ubev_bev_close u
      { state := ubev_cleanup q.1, absentOp := q.2.1, bevCloseViol := q.2.2 }
  | .eofWrite =>
    match u.bev with
    | none => { state := some u, absentOp := true }
    | some b =>
      if b.enRead = false then
        let p := if u.utp then ubev_utp_close u else (u, false)
        let q := ubev_bev_close p.1
        { state := ubev_cleanup q.1, absentOp := q.2.1, bevCloseViol := q.2.2,
          utpClosedF := u.utp }
      else
        let u1 : utp_bufferevent :=
          if u.utp then { u with utp_read_shutdown := true } else u
        { state := some { u1 with bev := some { b with output := [] } },
          utpShutRDF := u.utp }
  | .eofRead =>
    match u.bev with
    | none => { state := some u, absentOp := true }
    | some b =>
      if !u.utp_read_shutdown then
        { state := some u, utpShutWRF := true, absentOp := !u.utp }
      else
        let p := ubev_utp_close u
        if b.output = [] then
          let q := ubev_bev_close p.1
          { state := ubev_cleanup q.1, absentOp := p.2 || q.2.1,
            bevCloseViol := q.2.2, utpClosedF := true }
        else
          { state := some p.1, absentOp := p.2, utpClosedF := true }

/-- The closed set of events the dispatch loops can deliver to one bridge.
uTP events that may trigger a flush carry the `utp_write` oracle.  Bufferevent
read events carry the bytes the socket delivered into the input buffer. -/
inductive Ev where
  | utpConnect (W : Nat → List Nat → Int)
  | utpWritable (W : Nat → List Nat → Int)
  | utpEof (W : Nat → List Nat → Int)
  | utpError
  | utpDestroying
  | utpRead (data : List Nat)
  | bevRead (data : List Nat) (W : Nat → List Nat → Int)
  | bevWriteDrained
  | bevEv (k : BevEvKind)

/-- Event delivery: run the C callback that the dispatch loop would invoke,
after the library-side effects that precede it (read events first append the
received bytes to the input buffer; a write-drained event happens exactly
when the output buffer empties; libevent disables the failing direction
before an EOF/error event callback; `UTP_STATE_CONNECT` falls through to the
`UTP_STATE_WRITABLE` flush). -/
def stepEv (u : utp_bufferevent) (e : Ev) : StepRes :=
  match e with
  | .utpConnect W =>
    let u1 : utp_bufferevent := { u with other_bev := false }
    match u1.bev with
    | some _ => utp_bufferevent_flush W u1
    | none => { state := some u1 }
  | .utpWritable W =>
    match u.bev with
    | some _ => utp_bufferevent_flush W u
    | none => { state := some u }
  | .utpEof W =>
    let u1 : utp_bufferevent := { u with utp_read_shutdown := true }
    match u1.bev with
    | none => { state := some u1, absentOp := true }
    | some b =>
      if b.output = [] then ubev_bev_stop_writing W u1
      else { state := some u1 }
  | .utpError => utp_on_error u
  | .utpDestroying => { state := some u }
  | .utpRead data => utp_on_read data u
  | .bevRead data W =>
    match u.bev with
    | none => { state := some u, absentOp := true }
    | some b => ubev_read_cb W { u with bev := some { b with input := b.input ++ data } }
  | .bevWriteDrained =>
    match u.bev with
    | none => { state := some u, absentOp := true }
    | some b => ubev_write_cb { u with bev := some { b with output := [] } }
  | .bevEv k =>
    match u.bev with
    | none => { state := some u, absentOp := true }
    | some b =>
      let b1 : bevState :=
        match k with
        | .errRead | .eofRead => { b with enRead := false }
        | .errWrite | .eofWrite => { b with enWrite := false }
      ubev_event_cb k { u with bev := some b1 }

/-- Which events the two dispatch mechanisms can deliver in a given bridge
state: uTP callbacks need the userdata back-reference (except the
late `UTP_STATE_DESTROYING`, which is a no-op on a cleared userdata);
bufferevent callbacks need the corresponding direction enabled. -/
def feasible (u : utp_bufferevent) : Ev → Bool
  | .utpConnect _ => u.utp
  | .utpWritable _ => u.utp
  | .utpEof _ => u.utp
  | .utpError => u.utp
  | .utpRead _ => u.utp
  | .utpDestroying => true
  | .bevRead _ _ =>
    match u.bev with
    | some b => b.enRead
    | none => false
  | .bevWriteDrained =>
    match u.bev with
    | some b => b.enWrite
    | none => false
  | .bevEv k =>
    match u.bev with
    | some b =>
      match k with
      | .errRead | .eofRead => b.enRead
      | .errWrite | .eofWrite => b.enWrite
    | none => false

/-- The bridge state `utp_bufferevent_new` hands back on success: uTP handle
bound, userdata set, a fresh bufferevent (libevent enables writes on
creation, the constructor enables reads), flag clear. -/
def initState (other : Bool) : utp_bufferevent :=
  { utp := true, utp_read_shutdown := false,
    bev := some { enRead := true, enWrite := true, input := [], output := [] },
    other_bev := other }

/-- Run a sequence of events against an optional bridge; infeasible events
are not delivered, and nothing is delivered to a freed bridge. -/
def runTrace (s : Option utp_bufferevent) (evs : List Ev) : Option utp_bufferevent :=
  evs.foldl
    (fun s e =>
      match s with
      | none => none
      | some u => if feasible u e then (stepEv u e).state else some u) s

/-- States a bridge can reach from construction through feasible events. -/
inductive Reach : utp_bufferevent → Prop where
  | start : ∀ o, Reach (initState o)
  | next : ∀ u e u', Reach u → feasible u e = true → (stepEv u e).state = some u' →
      Reach u'

/-- The liveness invariant of every reachable (not yet freed) bridge: the
bufferevent is still present, and while its read direction is enabled the
uTP handle is also present. -/
def liveInv (u : utp_bufferevent) : Bool :=
  match u.bev with
  | none => false
  | some b => !b.enRead || u.utp

/-- Result of a factory operation: the bridge it built (`none` = failure and
the error sentinel is returned), plus which teardown effects ran:
`utp_set_userdata(s, NULL)` (`userdataCleared`), `utp_close` (`utpClosed`),
and `free` of the bridge (`bridgeFreed`). -/
structure NewRes where
  result : Option utp_bufferevent
  userdataCleared : Bool
  utpClosed : Bool
  bridgeFreed : Bool
deriving Repr, DecidableEq

/-- `utp_bufferevent_new`: allocate the zeroed bridge, bind the uTP socket
and set its userdata back-reference, then create the bufferevent wrapper
around the descriptor; `bevOk` is whether `bufferevent_socket_new` succeeds
(an external-collaborator outcome).  On success the read direction is
enabled (libevent creates bufferevents with the write direction enabled).
On failure the constructor runs `ubev_utp_close` — clearing the userdata
back-reference and closing the uTP socket — then `ubev_cleanup`, and
returns NULL. -/
def utp_bufferevent_new (bevOk : Bool) : NewRes :=
  let u0 : utp_bufferevent :=
    { utp := true, utp_read_shutdown := false, bev := none, other_bev := false }
  if bevOk then
    { result := some { u0 with
        bev := some { enRead := true, enWrite := true, input := [], output := [] } },
      userdataCleared := false, utpClosed := false, bridgeFreed := false }
  else
    let p := ubev_utp_close u0
    let s := ubev_cleanup p.1
    { result := s, userdataCleared := true, utpClosed := true,
      bridgeFreed := s.isNone }

/-- `utp_socket_create_fd`: build the loopback pair and the bridge around one
end; on bridge-construction failure close both descriptors and return the
error sentinel `-1`, otherwise return the far descriptor (modelled as `1`). -/
def utp_socket_create_fd (bevOk : Bool) : Int × NewRes :=
  let N := utp_bufferevent_new bevOk
  match N.result with
  | none => (-1, N)
  | some _ => (1, N)

/-- `utp_socket_create_bev`: like `utp_socket_create_fd`, but on success
wraps the far end in a bufferevent stored in `other_bev` (with its reference
count incremented) and returns it; on failure closes both descriptors and
returns NULL. -/
def utp_socket_create_bev (bevOk : Bool) : Option utp_bufferevent × NewRes :=
  let N := utp_bufferevent_new bevOk
  match N.result with
  | none => (none, N)
  | some u => (some { u with other_bev := true }, N)

end UtpBev

namespace UtpBev

/-- The submission loop on an empty input buffer does nothing. -/
theorem flushLoop_nil (W : Nat → List Nat → Int) (k fuel : Nat) :
    flushLoop W k fuel [] = ⟨[], [], [], false⟩ := by
  cases fuel <;> simp [flushLoop]

/-- Bookkeeping of the submission loop: the drained bytes followed by the
remaining input always reassemble the original input buffer. -/
theorem flushLoop_acc (W : Nat → List Nat → Int) (fuel : Nat) :
    ∀ k input, (flushLoop W k fuel input).acc ++ (flushLoop W k fuel input).input
      = input := by
  induction fuel with
  | zero => intro k input; simp [flushLoop]
  | succ fuel ih =>
    intro k input
    by_cases h : input = []
    · simp [flushLoop, h]
    · simp only [flushLoop, if_neg h]
      split
      · simp
      · split
        · simp
        · simp only []
          rw [List.append_assoc, ih]
          exact List.take_append_drop _ _

/-- Every chunk the submission loop passes to `utp_write` is at most 1500
bytes long. -/
theorem flushLoop_calls_le (W : Nat → List Nat → Int) (fuel : Nat) :
    ∀ k input c, c ∈ (flushLoop W k fuel input).calls → c.length ≤ 1500 := by
  induction fuel with
  | zero => intro k input c hc; simp [flushLoop] at hc
  | succ fuel ih =>
    intro k input c hc
    by_cases h : input = []
    · simp [flushLoop, h] at hc
    · simp only [flushLoop, if_neg h] at hc
      have hlen : (input.take (min 1500 input.length)).length ≤ 1500 := by
        rw [List.length_take]
        exact le_trans (Nat.min_le_left _ _) (Nat.min_le_left _ _)
      split at hc
      · simp at hc; subst hc; exact hlen
      · split at hc
        · simp at hc; subst hc; exact hlen
        · simp only [List.mem_cons] at hc
          rcases hc with rfl | hc
          · exact hlen
          · exact ih _ _ _ hc

/-- One loop iteration whose submission returns a negative result. -/
theorem flushLoop_neg (W : Nat → List Nat → Int) (k fuel : Nat) (input : List Nat)
    (h : input ≠ []) (hw : W k (input.take (min 1500 input.length)) < 0) :
    flushLoop W k (fuel+1) input
      = ⟨input, [input.take (min 1500 input.length)], [], true⟩ := by
  simp [flushLoop, if_neg h, hw]

/-- One loop iteration whose submission returns 0 (backpressure). -/
theorem flushLoop_zero (W : Nat → List Nat → Int) (k fuel : Nat) (input : List Nat)
    (h : input ≠ []) (hw : W k (input.take (min 1500 input.length)) = 0) :
    flushLoop W k (fuel+1) input
      = ⟨input, [input.take (min 1500 input.length)], [], false⟩ := by
  simp [flushLoop, if_neg h, hw]

/-- One loop iteration whose submission accepts `r > 0` bytes: exactly `r`
bytes are drained from the front of the input and the loop continues. -/
theorem flushLoop_pos (W : Nat → List Nat → Int) (k fuel : Nat) (input : List Nat)
    (h : input ≠ []) (r : Nat) (hr : 0 < r)
    (hw : W k (input.take (min 1500 input.length)) = (r : Int)) :
    flushLoop W k (fuel+1) input =
      { input := (flushLoop W (k+1) fuel (input.drop r)).input,
        calls := input.take (min 1500 input.length)
          :: (flushLoop W (k+1) fuel (input.drop r)).calls,
        acc := input.take r ++ (flushLoop W (k+1) fuel (input.drop r)).acc,
        werror := (flushLoop W (k+1) fuel (input.drop r)).werror } := by
  have h0 : ¬ (r : Int) < 0 := by omega
  have h1 : ¬ (r : Int) = 0 := by omega
  simp [flushLoop, if_neg h, hw, h0, h1]

end UtpBev

namespace UtpBev

/-- `ubev_bev_graceful_close`, entered after the uTP side was closed (as at
both of its call sites), leaves any surviving bridge in the live invariant:
bufferevent present with its read direction disabled. -/
theorem graceful_pres (u : utp_bufferevent) (b : bevState) (hb : u.bev = some b)
    (hutp : u.utp = false) :
    ∀ u', (ubev_bev_graceful_close u).1 = some u' → liveInv u' = true := by
  rcases u with ⟨ut, urs, bv, ob⟩
  obtain rfl : bv = some b := hb
  obtain rfl : ut = false := hutp
  intro u' h
  simp only [ubev_bev_graceful_close] at h
  split at h
  · simp [ubev_cleanup] at h
  · simp only [ubev_cleanup, Option.isSome_some, Bool.or_true, if_true] at h
    cases h
    simp [liveInv]

/-- `ubev_bev_graceful_close` never changes `utp_read_shutdown`. -/
theorem graceful_urs (u : utp_bufferevent) :
    ∀ u', (ubev_bev_graceful_close u).1 = some u' →
      u'.utp_read_shutdown = u.utp_read_shutdown := by
  rcases u with ⟨ut, urs, bv, ob⟩
  intro u' h
  rcases bv with _ | b
  · simp only [ubev_bev_graceful_close, ubev_cleanup] at h
    split at h
    · cases h; rfl
    · cases h
  · simp only [ubev_bev_graceful_close] at h
    split at h
    · simp only [ubev_cleanup] at h
      split at h
      · cases h; rfl
      · cases h
    · simp only [ubev_cleanup, Option.isSome_some, Bool.or_true, if_true] at h
      cases h; rfl

end UtpBev

namespace UtpBev

/-- `utp_bufferevent_flush`, invoked as the code invokes it (bufferevent
present, uTP handle present), never operates through a NULL handle and
leaves any surviving bridge satisfying the live invariant. -/
theorem flush_pres (W : Nat → List Nat → Int) (u : utp_bufferevent) (b : bevState)
    (hb : u.bev = some b) (hutp : u.utp = true) :
    (utp_bufferevent_flush W u).absentOp = false ∧
    ∀ u', (utp_bufferevent_flush W u).state = some u' → liveInv u' = true := by
  rcases u with ⟨ut, urs, bv, ob⟩
  obtain rfl : bv = some b := hb
  obtain rfl : ut = true := hutp
  simp only [utp_bufferevent_flush]
  split
  · refine ⟨by simp [ubev_utp_close], ?_⟩
    intro u' h'
    exact graceful_pres _ _ rfl rfl u' h'
  · split
    · split
      · refine ⟨by simp [ubev_utp_close, ubev_bev_close], ?_⟩
        intro u' h'
        simp [ubev_utp_close, ubev_bev_close, ubev_cleanup] at h'
      · refine ⟨by simp, ?_⟩
        intro u' h'
        cases h'
        rename_i h1 h2
        simp [liveInv, h1.1]
    · refine ⟨by simp, ?_⟩
      intro u' h'
      cases h'
      simp [liveInv]

end UtpBev

namespace UtpBev

/-- `utp_bufferevent_flush` never changes `utp_read_shutdown`. -/
theorem flush_urs (W : Nat → List Nat → Int) (u : utp_bufferevent) :
    ∀ u', (utp_bufferevent_flush W u).state = some u' →
      u'.utp_read_shutdown = u.utp_read_shutdown := by
  rcases u with ⟨ut, urs, bv, ob⟩
  intro u' h
  rcases bv with _ | b
  · simp only [utp_bufferevent_flush] at h
    cases h; rfl
  · simp only [utp_bufferevent_flush] at h
    split at h
    · have := graceful_urs _ u' h
      simpa using this
    · split at h
      · split at h
        · simp [ubev_utp_close, ubev_bev_close, ubev_cleanup] at h
        · cases h; rfl
      · cases h; rfl

/-- `ubev_bev_stop_writing` with the uTP handle present: no NULL-handle
operation, the live invariant is preserved, and `utp_read_shutdown` is
unchanged. -/
theorem stop_writing_pres (W : Nat → List Nat → Int) (u : utp_bufferevent)
    (b : bevState) (hb : u.bev = some b) (hutp : u.utp = true) :
    (ubev_bev_stop_writing W u).absentOp = false ∧
    ∀ u', (ubev_bev_stop_writing W u).state = some u' → liveInv u' = true := by
  rcases u with ⟨ut, urs, bv, ob⟩
  obtain rfl : bv = some b := hb
  obtain rfl : ut = true := hutp
  simp only [ubev_bev_stop_writing]
  split
  · refine ⟨by simp, ?_⟩
    intro u' h'
    cases h'
    simp [liveInv]
  · have hf := flush_pres W ⟨true, urs, some b, ob⟩ b rfl rfl
    exact ⟨hf.1, fun u' h' => hf.2 u' h'⟩

/-- `ubev_bev_stop_writing` never changes `utp_read_shutdown`. -/
theorem stop_writing_urs (W : Nat → List Nat → Int) (u : utp_bufferevent) :
    ∀ u', (ubev_bev_stop_writing W u).state = some u' →
      u'.utp_read_shutdown = u.utp_read_shutdown := by
  rcases u with ⟨ut, urs, bv, ob⟩
  intro u' h
  rcases bv with _ | b
  · simp only [ubev_bev_stop_writing] at h
    cases h; rfl
  · simp only [ubev_bev_stop_writing] at h
    split at h
    · cases h; rfl
    · exact flush_urs W _ u' h

end UtpBev

namespace UtpBev

/-- One feasible event delivered to a bridge satisfying the live invariant
never operates through a NULL handle, and every surviving successor state
satisfies the live invariant again. -/
theorem step_pres (u : utp_bufferevent) (e : Ev) (hinv : liveInv u = true)
    (hf : feasible u e = true) :
    (stepEv u e).absentOp = false ∧
    ∀ u', (stepEv u e).state = some u' → liveInv u' = true := by
  rcases u with ⟨ut, urs, bv, ob⟩
  rcases bv with _ | b
  · simp [liveInv] at hinv
  · have himp : b.enRead = true → ut = true := by
      intro h
      simpa [liveInv, h] using hinv
    cases e with
    | utpConnect W =>
      have hu : ut = true := by simpa [feasible] using hf
      subst hu
      simp only [stepEv]
      exact flush_pres W ⟨true, urs, some b, false⟩ b rfl rfl
    | utpWritable W =>
      have hu : ut = true := by simpa [feasible] using hf
      subst hu
      simp only [stepEv]
      exact flush_pres W ⟨true, urs, some b, ob⟩ b rfl rfl
    | utpEof W =>
      have hu : ut = true := by simpa [feasible] using hf
      subst hu
      simp only [stepEv]
      split
      · exact stop_writing_pres W ⟨true, true, some b, ob⟩ b rfl rfl
      · refine ⟨rfl, ?_⟩
        intro u' h'
        cases h'
        simp [liveInv]
    | utpError =>
      have hu : ut = true := by simpa [feasible] using hf
      subst hu
      simp only [stepEv, utp_on_error]
      split
      · refine ⟨by simp [ubev_utp_close], ?_⟩
        intro u' h'
        exact graceful_pres _ b rfl rfl u' h'
      · rename_i hcontra
        exact absurd trivial hcontra
    | utpDestroying =>
      refine ⟨rfl, ?_⟩
      intro u' h'
      cases h'
      exact hinv
    | utpRead data =>
      simp only [stepEv, utp_on_read]
      split
      · refine ⟨rfl, ?_⟩
        intro u' h'
        cases h'
        simpa [liveInv] using hinv
      · refine ⟨rfl, ?_⟩
        intro u' h'
        cases h'
        exact hinv
    | bevRead data W =>
      have hr : b.enRead = true := by simpa [feasible] using hf
      have hu := himp hr
      subst hu
      simp only [stepEv, ubev_read_cb]
      have hfp := flush_pres W ⟨true, urs, some { b with input := b.input ++ data }, ob⟩
        { b with input := b.input ++ data } rfl rfl
      exact ⟨hfp.1, fun u' h' => hfp.2 u' h'⟩
    | bevWriteDrained =>
      simp only [stepEv, ubev_write_cb]
      split
      · refine ⟨rfl, ?_⟩
        intro u' h'
        cases h'
        simpa [liveInv] using hinv
      · rename_i hut
        have hu : ut = false := by simpa using hut
        refine ⟨by simp [ubev_bev_close], ?_⟩
        intro u' h'
        simp [ubev_bev_close, ubev_cleanup, hu] at h'
    | bevEv k =>
      simp only [stepEv]
      cases k with
      | errRead =>
        have hr : b.enRead = true := by simpa [feasible] using hf
        have hu := himp hr
        subst hu
        simp only [ubev_event_cb]
        split
        · split
          · refine ⟨rfl, ?_⟩
            intro u' h'
            cases h'
            simp [liveInv]
          · refine ⟨by simp [ubev_utp_close, ubev_bev_close], ?_⟩
            intro u' h'
            simp [ubev_utp_close, ubev_bev_close, ubev_cleanup] at h'
        · rename_i hcontra
          exact absurd trivial hcontra
      | errWrite =>
        simp only [ubev_event_cb]
        split
        · rename_i hut
          split
          · refine ⟨rfl, ?_⟩
            intro u' h'
            cases h'
            simp [liveInv, hut]
          · refine ⟨by simp [ubev_utp_close, ubev_bev_close, hut], ?_⟩
            intro u' h'
            simp [ubev_utp_close, ubev_bev_close, ubev_cleanup] at h'
        · rename_i hut
          have hu : ut = false := by simpa using hut
          refine ⟨by simp [ubev_bev_close], ?_⟩
          intro u' h'
          simp [ubev_bev_close, ubev_cleanup, hu] at h'
      | eofRead =>
        have hr : b.enRead = true := by simpa [feasible] using hf
        have hu := himp hr
        subst hu
        simp only [ubev_event_cb]
        split
        · refine ⟨by simp, ?_⟩
          intro u' h'
          cases h'
          simp [liveInv]
        · split
          · refine ⟨by simp [ubev_utp_close, ubev_bev_close], ?_⟩
            intro u' h'
            simp [ubev_utp_close, ubev_bev_close, ubev_cleanup] at h'
          · refine ⟨by simp [ubev_utp_close], ?_⟩
            intro u' h'
            cases h'
            simp [liveInv, ubev_utp_close]
      | eofWrite =>
        simp only [ubev_event_cb]
        split
        · refine ⟨?_, ?_⟩
          · cases ut <;> simp [ubev_utp_close, ubev_bev_close]
          · intro u' h'
            cases ut <;>
              simp [ubev_utp_close, ubev_bev_close, ubev_cleanup] at h'
        · rename_i hEnR
          have hr : b.enRead = true := by simpa using hEnR
          have hu := himp hr
          subst hu
          refine ⟨rfl, ?_⟩
          intro u' h'
          cases h'
          simp [liveInv]

end UtpBev

namespace UtpBev

/-- Every reachable live bridge satisfies the live invariant. -/
theorem reach_inv : ∀ u, Reach u → liveInv u = true := by
  intro u h
  induction h with
  | start o => simp [liveInv, initState]
  | next u e u' hr hf hs ih => exact (step_pres u e ih hf).2 u' hs

/-- A freed bridge stays freed: no event of a trace is delivered to it. -/
theorem runTrace_none : ∀ evs : List Ev, runTrace none evs = none := by
  intro evs
  induction evs with
  | nil => rfl
  | cons e evs ih => simpa [runTrace] using ih

/-- One delivered event never turns `utp_read_shutdown` from true to
false. -/
theorem step_urs (u : utp_bufferevent) (e : Ev) :
    ∀ u', (stepEv u e).state = some u' → u.utp_read_shutdown = true →
      u'.utp_read_shutdown = true := by
  rcases u with ⟨ut, urs, bv, ob⟩
  intro u' h hu
  obtain rfl : urs = true := hu
  cases e with
  | utpConnect W =>
    rcases bv with _ | b
    · simp only [stepEv] at h; cases h; rfl
    · simp only [stepEv] at h
      simpa using flush_urs W _ u' h
  | utpWritable W =>
    rcases bv with _ | b
    · simp only [stepEv] at h; cases h; rfl
    · simp only [stepEv] at h
      simpa using flush_urs W _ u' h
  | utpEof W =>
    rcases bv with _ | b
    · simp only [stepEv] at h; cases h; rfl
    · simp only [stepEv] at h
      split at h
      · simpa using stop_writing_urs W _ u' h
      · cases h; rfl
  | utpError =>
    simp only [stepEv, utp_on_error] at h
    split at h
    · simpa using graceful_urs _ u' h
    · cases h; rfl
  | utpDestroying =>
    simp only [stepEv] at h; cases h; rfl
  | utpRead data =>
    rcases bv with _ | b
    · simp only [stepEv, utp_on_read] at h; cases h; rfl
    · simp only [stepEv, utp_on_read] at h
      split at h
      · cases h; rfl
      · cases h; rfl
  | bevRead data W =>
    rcases bv with _ | b
    · simp only [stepEv] at h; cases h; rfl
    · simp only [stepEv, ubev_read_cb] at h
      simpa using flush_urs W _ u' h
  | bevWriteDrained =>
    rcases bv with _ | b
    · simp only [stepEv] at h; cases h; rfl
    · simp only [stepEv, ubev_write_cb] at h
      split at h
      · cases h; rfl
      · rename_i hut
        have hu : ut = false := by simpa using hut
        simp [ubev_bev_close, ubev_cleanup, hu] at h
  | bevEv k =>
    rcases bv with _ | b
    · simp only [stepEv] at h; cases h; rfl
    · cases k with
      | errRead =>
        simp only [stepEv, ubev_event_cb] at h
        split at h
        · split at h
          · cases h; rfl
          · simp [ubev_utp_close, ubev_bev_close, ubev_cleanup] at h
        · rename_i hut
          have hu : ut = false := by simpa using hut
          simp [ubev_bev_close, ubev_cleanup, hu] at h
      | errWrite =>
        simp only [stepEv, ubev_event_cb] at h
        split at h
        · split at h
          · cases h; rfl
          · simp [ubev_utp_close, ubev_bev_close, ubev_cleanup] at h
        · rename_i hut
          have hu : ut = false := by simpa using hut
          simp [ubev_bev_close, ubev_cleanup, hu] at h
      | eofRead =>
        simp only [stepEv, ubev_event_cb] at h
        split at h
        · cases h; rfl
        · split at h
          · simp [ubev_utp_close, ubev_bev_close, ubev_cleanup] at h
          · simp only [ubev_utp_close] at h
            cases h; rfl
      | eofWrite =>
        simp only [stepEv, ubev_event_cb] at h
        split at h
        · split at h
          · simp [ubev_utp_close, ubev_bev_close, ubev_cleanup] at h
          · rename_i hut
            have hu : ut = false := by simpa using hut
            simp [ubev_bev_close, ubev_cleanup, hu] at h
        · split at h
          · cases h; rfl
          · cases h; rfl

end UtpBev

namespace UtpBev

/-- `runTrace` on the empty trace. -/
theorem runTrace_nil (s : Option utp_bufferevent) : runTrace s [] = s := rfl

/-- `runTrace` unfolding for one leading event. -/
theorem runTrace_cons (s : Option utp_bufferevent) (e : Ev) (evs : List Ev) :
    runTrace s (e :: evs) =
      runTrace
        (match s with
         | none => none
         | some u => if feasible u e then (stepEv u e).state else some u) evs := rfl

/-- C5: in every event callback reachable through feasible event delivery, no
operation is issued on the uTP socket or on the bufferevent while the
corresponding handle is absent — in particular the end-of-stream-while-reading
transition that half-closes the uTP send side when `utp_read_shutdown` is
false always finds the uTP handle present. -/
theorem c5_no_absent_handle_op (u : utp_bufferevent) (e : Ev) (hr : Reach u)
    (hf : feasible u e = true) : (stepEv u e).absentOp = false :=
  (step_pres u e (reach_inv u hr) hf).1

/-- Witness for C5 at a concrete reachable state and feasible event. -/
theorem c5_no_absent_handle_op_witness :
    (stepEv (initState false) (Ev.utpRead [1, 2])).absentOp = false :=
  c5_no_absent_handle_op (initState false) (Ev.utpRead [1, 2]) (Reach.start false) rfl

/-- C8: `utp_read_shutdown` is monotonic — once true, it stays true across
any subsequent event trace delivered to the bridge. -/
theorem c8_read_shutdown_monotonic :
    ∀ (evs : List Ev) (u u' : utp_bufferevent), u.utp_read_shutdown = true →
      runTrace (some u) evs = some u' → u'.utp_read_shutdown = true := by
  intro evs
  induction evs with
  | nil =>
    intro u u' hu h
    rw [runTrace_nil] at h
    cases h
    exact hu
  | cons e evs ih =>
    intro u u' hu h
    rw [runTrace_cons] at h
    by_cases hfe : feasible u e = true
    · simp only [hfe, if_true] at h
      cases hs : (stepEv u e).state with
      | none =>
        rw [hs, runTrace_none] at h
        cases h
      | some u2 =>
        rw [hs] at h
        exact ih u2 u' (step_urs u e u2 hs hu) h
    · simp only [hfe, if_false] at h
      exact ih u u' hu h

/-- Witness for C8 on a concrete one-event trace from a state with the flag
set. -/
theorem c8_read_shutdown_monotonic_witness :
    (⟨true, true, some ⟨true, true, [], [3]⟩, false⟩ : utp_bufferevent).utp_read_shutdown
      = true :=
  c8_read_shutdown_monotonic [Ev.utpRead [3]]
    ⟨true, true, some ⟨true, true, [], []⟩, false⟩
    ⟨true, true, some ⟨true, true, [], [3]⟩, false⟩ rfl rfl

/-- C6: `ubev_cleanup` frees the bridge iff both handles are absent, is a
no-op while either is present, and a freed bridge is never stepped again (no
event of any trace is delivered to it). -/
theorem c6_destroy_iff_both_absent :
    (∀ u : utp_bufferevent, ubev_cleanup u = none ↔ (u.utp = false ∧ u.bev = none)) ∧
    (∀ u : utp_bufferevent, u.utp = true ∨ u.bev ≠ none → ubev_cleanup u = some u) ∧
    (∀ evs : List Ev, runTrace none evs = none) := by
  refine ⟨?_, ?_, runTrace_none⟩
  · intro u
    rcases u with ⟨ut, urs, bv, ob⟩
    cases ut <;> cases bv <;> simp [ubev_cleanup]
  · intro u h
    rcases u with ⟨ut, urs, bv, ob⟩
    rcases h with h | h
    · obtain rfl : ut = true := h
      simp [ubev_cleanup]
    · cases bv with
      | none => exact absurd rfl h
      | some b => simp [ubev_cleanup]

/-- Witness for C6: a live bridge survives cleanup; a doubly-absent one is
freed. -/
theorem c6_destroy_iff_both_absent_witness :
    ubev_cleanup (initState false) = some (initState false) ∧
    ubev_cleanup
      { utp := false, utp_read_shutdown := false, bev := none, other_bev := false }
      = none := by
  constructor
  · exact c6_destroy_iff_both_absent.2.1 (initState false) (Or.inl rfl)
  · exact (c6_destroy_iff_both_absent.1 _).mpr ⟨rfl, rfl⟩

/-- C9: `utp_on_read` appends exactly the received bytes, unsplit, to the
bufferevent's output buffer when it is present with writes enabled, and in
every other state changes nothing (the data is dropped). -/
theorem c9_utp_on_read_forwarding (u : utp_bufferevent) (data : List Nat) :
    (∀ b, u.bev = some b → b.enWrite = true →
      (utp_on_read data u).state =
        some { u with bev := some { b with output := b.output ++ data } }) ∧
    (∀ b, u.bev = some b → b.enWrite = false → (utp_on_read data u).state = some u) ∧
    (u.bev = none → (utp_on_read data u).state = some u) ∧
    (utp_on_read data u).absentOp = false := by
  rcases u with ⟨ut, urs, bv, ob⟩
  rcases bv with _ | b
  · refine ⟨?_, ?_, ?_, rfl⟩
    · intro b' hb
      exact Option.noConfusion hb
    · intro b' hb
      exact Option.noConfusion hb
    · intro _
      rfl
  · refine ⟨?_, ?_, ?_, ?_⟩
    · intro b' hb hw
      cases hb
      simp [utp_on_read, hw]
    · intro b' hb hw
      cases hb
      simp [utp_on_read, hw]
    · intro hb
      exact Option.noConfusion hb
    · simp only [utp_on_read]
      split <;> rfl

/-- Witness for C9: a 3000-byte delivery is enqueued unsplit. -/
theorem c9_utp_on_read_forwarding_witness :
    (utp_on_read (List.replicate 3000 1) (initState false)).state =
      some { utp := true, utp_read_shutdown := false,
             bev := some { enRead := true, enWrite := true, input := [],
                           output := List.replicate 3000 1 },
             other_bev := false } := by
  have h := (c9_utp_on_read_forwarding (initState false) (List.replicate 3000 1)).1
    { enRead := true, enWrite := true, input := [], output := [] } rfl rfl
  exact h

/-- C10: on bufferevent-creation failure each factory operation closes the
uTP socket (clearing its userdata back-reference), frees the bridge, and
returns the error sentinel, so the caller's uTP connection is consumed even
on failure. -/
theorem c10_factory_failure_closes_utp :
    (utp_socket_create_fd false).1 = -1 ∧
    (utp_socket_create_fd false).2.utpClosed = true ∧
    (utp_socket_create_fd false).2.userdataCleared = true ∧
    (utp_socket_create_fd false).2.bridgeFreed = true ∧
    (utp_socket_create_fd false).2.result = none ∧
    (utp_socket_create_bev false).1 = none ∧
    (utp_socket_create_bev false).2.utpClosed = true ∧
    (utp_socket_create_bev false).2.userdataCleared = true ∧
    (utp_socket_create_bev false).2.bridgeFreed = true :=
  ⟨rfl, rfl, rfl, rfl, rfl, rfl, rfl, rfl, rfl⟩

/-- C1 fails on the code: from a fresh bridge, one byte delivered on the
bufferevent while `utp_write` backpressures (returns 0), followed by a
feasible `BEV_EVENT_ERROR`, reaches `ubev_bev_close` with the input buffer
non-empty and the write direction still enabled, so its assertions fire. -/
theorem c1_bev_close_assert_fires :
    feasible (initState false) (Ev.bevRead [1] (fun _ _ => 0)) = true ∧
    (stepEv (initState false) (Ev.bevRead [1] (fun _ _ => 0))).state =
      some { utp := true, utp_read_shutdown := false,
             bev := some { enRead := true, enWrite := true, input := [1], output := [] },
             other_bev := false } ∧
    feasible
      { utp := true, utp_read_shutdown := false,
        bev := some { enRead := true, enWrite := true, input := [1], output := [] },
        other_bev := false } (Ev.bevEv BevEvKind.errRead) = true ∧
    (stepEv
      { utp := true, utp_read_shutdown := false,
        bev := some { enRead := true, enWrite := true, input := [1], output := [] },
        other_bev := false } (Ev.bevEv BevEvKind.errRead)).bevCloseViol = true :=
  ⟨rfl, rfl, rfl, rfl⟩

end UtpBev

namespace UtpBev

/-- C2 fails as stated: with `utp_write` failing on the first call, flush's
error handling discards the whole input buffer — the two bytes present at
entry are neither accepted by Transport A (`acc = []`, the only call was
rejected) nor present anywhere afterwards (the bridge is freed, input buffer
and all). -/
theorem c2_flush_error_discards_input :
    (utp_bufferevent_flush (fun _ _ => -1)
      { utp := true, utp_read_shutdown := false,
        bev := some { enRead := true, enWrite := true, input := [1, 2], output := [] },
        other_bev := false }).state = none ∧
    (utp_bufferevent_flush (fun _ _ => -1)
      { utp := true, utp_read_shutdown := false,
        bev := some { enRead := true, enWrite := true, input := [1, 2], output := [] },
        other_bev := false }).acc = [] ∧
    (utp_bufferevent_flush (fun _ _ => -1)
      { utp := true, utp_read_shutdown := false,
        bev := some { enRead := true, enWrite := true, input := [1, 2], output := [] },
        other_bev := false }).calls = [[1, 2]] ∧
    (utp_bufferevent_flush (fun _ _ => -1)
      { utp := true, utp_read_shutdown := false,
        bev := some { enRead := true, enWrite := true, input := [1, 2], output := [] },
        other_bev := false }).werror = true :=
  ⟨rfl, rfl, rfl, rfl⟩

/-- C2 (amended): on every flush in which no submission returns a negative
result, the bytes accepted by `utp_write` followed by the remaining input
buffer reassemble exactly the input present when flush began — no byte is
lost — and any surviving bufferevent holds exactly the remaining bytes. -/
theorem c2_flush_no_error_preserves_bytes (W : Nat → List Nat → Int)
    (u : utp_bufferevent) (b : bevState) (hb : u.bev = some b)
    (hw : (utp_bufferevent_flush W u).werror = false) :
    (utp_bufferevent_flush W u).acc ++ (utp_bufferevent_flush W u).inAfter = b.input ∧
    (∀ u' b', (utp_bufferevent_flush W u).state = some u' → u'.bev = some b' →
      b'.input = (utp_bufferevent_flush W u).inAfter) := by
  rcases u with ⟨ut, urs, bv, ob⟩
  obtain rfl : bv = some b := hb
  have hacc := flushLoop_acc W (b.input.length + 1) 0 b.input
  revert hw
  simp only [utp_bufferevent_flush]
  split
  · intro hw
    simp at hw
  · split
    · split
      · intro _
        refine ⟨hacc, ?_⟩
        intro u' b' hs hb'
        simp [ubev_utp_close, ubev_bev_close, ubev_cleanup] at hs
      · intro _
        refine ⟨hacc, ?_⟩
        intro u' b' hs hb'
        cases hs
        cases hb'
        rfl
    · intro _
      refine ⟨hacc, ?_⟩
      intro u' b' hs hb'
      cases hs
      cases hb'
      rfl

/-- Witness for C2's amended statement on a concrete backpressured flush. -/
theorem c2_flush_no_error_preserves_bytes_witness :
    (utp_bufferevent_flush (fun _ _ => 0)
      { utp := true, utp_read_shutdown := false,
        bev := some { enRead := true, enWrite := true, input := [3, 4], output := [] },
        other_bev := false }).acc ++
    (utp_bufferevent_flush (fun _ _ => 0)
      { utp := true, utp_read_shutdown := false,
        bev := some { enRead := true, enWrite := true, input := [3, 4], output := [] },
        other_bev := false }).inAfter = [3, 4] :=
  (c2_flush_no_error_preserves_bytes (fun _ _ => 0)
    { utp := true, utp_read_shutdown := false,
      bev := some { enRead := true, enWrite := true, input := [3, 4], output := [] },
      other_bev := false }
    { enRead := true, enWrite := true, input := [3, 4], output := [] } rfl rfl).1

/-- C3: the submission-result policy of the flush loop.  A negative result
closes the uTP side, gracefully closes the bufferevent and stops with the
error flag set (nothing was accepted, only the one rejected chunk was
attempted).  A zero result stops the loop leaving the chunk and the whole
input buffer un-drained, and flush returns without error and without
touching the bridge.  A positive result `r` drains exactly `r` bytes from
the front of the input and the loop continues on a strictly smaller
buffer. -/
theorem c3_submit_result_policy (W : Nat → List Nat → Int) (u : utp_bufferevent)
    (b : bevState) (hb : u.bev = some b) (hne : b.input ≠ []) :
    (W 0 (b.input.take (min 1500 b.input.length)) < 0 →
      (utp_bufferevent_flush W u).werror = true ∧
      (utp_bufferevent_flush W u).utpClosedF = true ∧
      (utp_bufferevent_flush W u).calls = [b.input.take (min 1500 b.input.length)] ∧
      (utp_bufferevent_flush W u).acc = [] ∧
      (utp_bufferevent_flush W u).state =
        (ubev_bev_graceful_close { u with utp := false, other_bev := false }).1) ∧
    (W 0 (b.input.take (min 1500 b.input.length)) = 0 →
      (utp_bufferevent_flush W u).werror = false ∧
      (utp_bufferevent_flush W u).calls = [b.input.take (min 1500 b.input.length)] ∧
      (utp_bufferevent_flush W u).acc = [] ∧
      (utp_bufferevent_flush W u).state = some u) ∧
    (∀ r : Nat, 0 < r → r ≤ min 1500 b.input.length →
      W 0 (b.input.take (min 1500 b.input.length)) = (r : Int) →
      flushLoop W 0 (b.input.length + 1) b.input =
        { input := (flushLoop W 1 b.input.length (b.input.drop r)).input,
          calls := b.input.take (min 1500 b.input.length) ::
            (flushLoop W 1 b.input.length (b.input.drop r)).calls,
          acc := b.input.take r ++ (flushLoop W 1 b.input.length (b.input.drop r)).acc,
          werror := (flushLoop W 1 b.input.length (b.input.drop r)).werror } ∧
      (b.input.drop r).length = b.input.length - r ∧
      b.input.length - r < b.input.length) := by
  rcases u with ⟨ut, urs, bv, ob⟩
  obtain rfl : bv = some b := hb
  refine ⟨?_, ?_, ?_⟩
  · intro hw
    have hL := flushLoop_neg W 0 b.input.length b.input hne hw
    simp only [utp_bufferevent_flush, hL]
    exact ⟨rfl, rfl, rfl, rfl, rfl⟩
  · intro hw
    have hL := flushLoop_zero W 0 b.input.length b.input hne hw
    simp only [utp_bufferevent_flush, hL]
    refine ⟨?_, ?_, ?_, ?_⟩ <;> simp [hne]
  · intro r hr hrle hw
    have hL := flushLoop_pos W 0 b.input.length b.input hne r hr hw
    have hlen : 0 < b.input.length := List.length_pos.mpr hne
    have hrlen : r ≤ b.input.length := le_trans hrle (Nat.min_le_right _ _)
    refine ⟨hL, List.length_drop _ _, by omega⟩

/-- Witness for C3 on the backpressure scenario: 1500 bytes pending,
`utp_write` returns 0, flush leaves all 1500 bytes in place and reports no
error. -/
theorem c3_submit_result_policy_witness :
    (utp_bufferevent_flush (fun _ _ => 0)
      { utp := true, utp_read_shutdown := false,
        bev := some { enRead := true, enWrite := true,
                      input := List.replicate 1500 7, output := [] },
        other_bev := false }).werror = false ∧
    (utp_bufferevent_flush (fun _ _ => 0)
      { utp := true, utp_read_shutdown := false,
        bev := some { enRead := true, enWrite := true,
                      input := List.replicate 1500 7, output := [] },
        other_bev := false }).state =
      some { utp := true, utp_read_shutdown := false,
             bev := some { enRead := true, enWrite := true,
                           input := List.replicate 1500 7, output := [] },
             other_bev := false } := by
  have h := (c3_submit_result_policy (fun _ _ => 0)
    { utp := true, utp_read_shutdown := false,
      bev := some { enRead := true, enWrite := true,
                    input := List.replicate 1500 7, output := [] },
      other_bev := false }
    { enRead := true, enWrite := true, input := List.replicate 1500 7, output := [] }
    rfl (List.ne_nil_of_length_pos (by rw [List.length_replicate]; norm_num))).2.1 rfl
  exact ⟨h.1, h.2.2.2⟩

end UtpBev

namespace UtpBev

/-- C4 fails as stated: remote end-of-stream arrives with one byte still in
the bufferevent's output buffer, `utp_read_shutdown` becomes true and the
write side stays enabled, but when the buffer later drains the write
callback performs no deferred shutdown of the write side — no
`bufferevent_disable(EV_WRITE)`, no `shutdown(fd, SHUT_WR)` — it only sends
the `utp_read_drained` acknowledgment, and the write side is still enabled
in the resulting state. -/
theorem c4_drain_no_deferred_shutdown :
    feasible (initState false) (Ev.utpRead [5]) = true ∧
    (stepEv (initState false) (Ev.utpRead [5])).state =
      some ⟨true, false, some ⟨true, true, [], [5]⟩, false⟩ ∧
    feasible ⟨true, false, some ⟨true, true, [], [5]⟩, false⟩
      (Ev.utpEof (fun _ _ => 0)) = true ∧
    (stepEv ⟨true, false, some ⟨true, true, [], [5]⟩, false⟩
      (Ev.utpEof (fun _ _ => 0))).state =
      some ⟨true, true, some ⟨true, true, [], [5]⟩, false⟩ ∧
    feasible ⟨true, true, some ⟨true, true, [], [5]⟩, false⟩ Ev.bevWriteDrained = true ∧
    (stepEv ⟨true, true, some ⟨true, true, [], [5]⟩, false⟩ Ev.bevWriteDrained).state =
      some ⟨true, true, some ⟨true, true, [], []⟩, false⟩ ∧
    (stepEv ⟨true, true, some ⟨true, true, [], [5]⟩, false⟩
      Ev.bevWriteDrained).fdShutWRF = false ∧
    (stepEv ⟨true, true, some ⟨true, true, [], [5]⟩, false⟩
      Ev.bevWriteDrained).utpReadDrainedF = true :=
  ⟨rfl, rfl, rfl, rfl, rfl, rfl, rfl, rfl⟩

/-- C4 (amended): when the uTP side reports remote end-of-stream while the
bufferevent's output buffer is non-empty, `utp_read_shutdown` becomes true
and nothing else changes — in particular the write side stays enabled.  When
the output buffer later drains, the write callback does not shut down the
bufferevent's write side: with the uTP handle present it only acknowledges
consumption to the uTP side (`utp_read_drained`), leaving the write side
enabled; only with the uTP handle already absent does drain-time teardown
happen, and then it closes the bufferevent entirely and frees the bridge. -/
theorem c4_eof_defers_and_drain_acks (u : utp_bufferevent) (b : bevState)
    (W : Nat → List Nat → Int) (hb : u.bev = some b) (ho : b.output ≠ []) :
    ((stepEv u (Ev.utpEof W)).state = some { u with utp_read_shutdown := true } ∧
     (stepEv u (Ev.utpEof W)).fdShutWRF = false) ∧
    (∀ v c, v.bev = some c → v.utp = true →
      (stepEv v Ev.bevWriteDrained).state =
        some { v with bev := some { c with output := [] } } ∧
      (stepEv v Ev.bevWriteDrained).utpReadDrainedF = true ∧
      (stepEv v Ev.bevWriteDrained).fdShutWRF = false) ∧
    (∀ v c, v.bev = some c → v.utp = false →
      (stepEv v Ev.bevWriteDrained).state = none) := by
  refine ⟨?_, ?_, ?_⟩
  · rcases u with ⟨ut, urs, bv, ob⟩
    obtain rfl : bv = some b := hb
    simp only [stepEv]
    rw [if_neg ho]
    exact ⟨rfl, rfl⟩
  · intro v c hv hu
    rcases v with ⟨vt, vrs, vbv, vob⟩
    obtain rfl : vbv = some c := hv
    obtain rfl : vt = true := hu
    exact ⟨rfl, rfl, rfl⟩
  · intro v c hv hu
    rcases v with ⟨vt, vrs, vbv, vob⟩
    obtain rfl : vbv = some c := hv
    obtain rfl : vt = false := hu
    simp [stepEv, ubev_write_cb, ubev_bev_close, ubev_cleanup]

/-- Witness for C4's amended statement on concrete states. -/
theorem c4_eof_defers_and_drain_acks_witness :
    (stepEv ⟨true, false, some ⟨true, true, [], [9]⟩, false⟩
      (Ev.utpEof (fun _ _ => 0))).state =
      some ⟨true, true, some ⟨true, true, [], [9]⟩, false⟩ ∧
    (stepEv (initState false) Ev.bevWriteDrained).utpReadDrainedF = true := by
  have h := c4_eof_defers_and_drain_acks ⟨true, false, some ⟨true, true, [], [9]⟩, false⟩
    ⟨true, true, [], [9]⟩ (fun _ _ => 0) rfl (by simp)
  exact ⟨h.1.1, (h.2.1 (initState false) ⟨true, true, [], []⟩ rfl rfl).2.1⟩

end UtpBev

namespace UtpBev

/-- With a fully-accepting `utp_write` (every call accepts the whole chunk),
one loop iteration drains exactly `min 1500 length` bytes. -/
theorem flushLoop_fullAccept_step (k fuel : Nat) (input : List Nat) (hne : input ≠ []) :
    flushLoop (fun _ c => (c.length : Int)) k (fuel+1) input =
      { input := (flushLoop (fun _ c => (c.length : Int)) (k+1) fuel
          (input.drop (min 1500 input.length))).input,
        calls := input.take (min 1500 input.length) ::
          (flushLoop (fun _ c => (c.length : Int)) (k+1) fuel
            (input.drop (min 1500 input.length))).calls,
        acc := input.take (min 1500 input.length) ++
          (flushLoop (fun _ c => (c.length : Int)) (k+1) fuel
            (input.drop (min 1500 input.length))).acc,
        werror := (flushLoop (fun _ c => (c.length : Int)) (k+1) fuel
          (input.drop (min 1500 input.length))).werror } := by
  have hlp : 0 < input.length := List.length_pos.mpr hne
  have hr : 0 < min 1500 input.length := by omega
  have hw : (fun _ c => ((c.length : Nat) : Int)) k (input.take (min 1500 input.length))
      = ((min 1500 input.length : Nat) : Int) := by
    show ((input.take (min 1500 input.length)).length : Int) = _
    rw [List.length_take]
    congr 1
    omega
  exact flushLoop_pos (fun _ c => (c.length : Int)) k fuel input hne
    (min 1500 input.length) hr hw

/-- With a fully-accepting `utp_write` and 4000 bytes pending, the loop makes
exactly three calls of sizes 1500, 1500, 1000, drains everything, and reports
no error. -/
theorem flushLoop_fa4000 (input : List Nat) (h : input.length = 4000) :
    (flushLoop (fun _ c => (c.length : Int)) 0 (input.length + 1) input).input = [] ∧
    (flushLoop (fun _ c => (c.length : Int)) 0 (input.length + 1) input).calls.map
      List.length = [1500, 1500, 1000] ∧
    (flushLoop (fun _ c => (c.length : Int)) 0 (input.length + 1) input).werror
      = false := by
  have hne1 : input ≠ [] := List.ne_nil_of_length_pos (by omega)
  have hl2 : (input.drop 1500).length = 2500 := by rw [List.length_drop]; omega
  have hne2 : input.drop 1500 ≠ [] := List.ne_nil_of_length_pos (by omega)
  have hl3 : ((input.drop 1500).drop 1500).length = 1000 := by
    rw [List.length_drop, List.length_drop]; omega
  have hne3 : (input.drop 1500).drop 1500 ≠ [] := List.ne_nil_of_length_pos (by omega)
  have hl4 : (((input.drop 1500).drop 1500).drop 1000).length = 0 := by
    rw [List.length_drop, List.length_drop, List.length_drop]; omega
  have hnil : ((input.drop 1500).drop 1500).drop 1000 = [] :=
    List.length_eq_zero.mp hl4
  have e1 := flushLoop_fullAccept_step 0 4000 input hne1
  rw [show (min 1500 input.length : Nat) = 1500 from by omega] at e1
  have e2 := flushLoop_fullAccept_step (0+1) 3999 (input.drop 1500) hne2
  rw [show (min 1500 (input.drop 1500).length : Nat) = 1500 from by omega] at e2
  have e3 := flushLoop_fullAccept_step (0+1+1) 3998 ((input.drop 1500).drop 1500) hne3
  rw [show (min 1500 ((input.drop 1500).drop 1500).length : Nat) = 1000 from by omega]
    at e3
  rw [hnil, flushLoop_nil] at e3
  rw [h, e1]
  rw [show (4000 : Nat) = 3999 + 1 from by norm_num, e2]
  rw [show (3999 : Nat) = 3998 + 1 from by norm_num, e3]
  refine ⟨rfl, ?_, rfl⟩
  simp only [List.map_cons, List.map_nil, List.length_take, List.length_drop, h]
  norm_num [Nat.min_def]

end UtpBev

namespace UtpBev

/-- C7: every chunk flush submits to `utp_write` is at most 1500 bytes; and
with 4000 bytes pending and a fully-accepting `utp_write`, flush makes
exactly three calls of sizes 1500, 1500 and 1000, the input buffer is fully
drained when the loop ends, and no error is reported. -/
theorem c7_chunk_bound_and_scenario :
    (∀ (W : Nat → List Nat → Int) (u : utp_bufferevent) (b : bevState),
      u.bev = some b → ∀ c ∈ (utp_bufferevent_flush W u).calls, c.length ≤ 1500) ∧
    (∀ (u : utp_bufferevent) (b : bevState), u.bev = some b → b.input.length = 4000 →
      (utp_bufferevent_flush (fun _ c => (c.length : Int)) u).calls.map List.length
        = [1500, 1500, 1000] ∧
      (utp_bufferevent_flush (fun _ c => (c.length : Int)) u).inAfter = [] ∧
      (utp_bufferevent_flush (fun _ c => (c.length : Int)) u).werror = false) := by
  constructor
  · intro W u b hb c hc
    rcases u with ⟨ut, urs, bv, ob⟩
    obtain rfl : bv = some b := hb
    revert hc
    simp only [utp_bufferevent_flush]
    split
    · intro hc
      exact flushLoop_calls_le W _ _ _ c hc
    · split
      · split
        · intro hc
          exact flushLoop_calls_le W _ _ _ c hc
        · intro hc
          exact flushLoop_calls_le W _ _ _ c hc
      · intro hc
        exact flushLoop_calls_le W _ _ _ c hc
  · intro u b hb hlen
    rcases u with ⟨ut, urs, bv, ob⟩
    obtain rfl : bv = some b := hb
    have hfa := flushLoop_fa4000 b.input hlen
    simp only [utp_bufferevent_flush]
    split
    · rename_i hE
      rw [hfa.2.2] at hE
      exact Bool.noConfusion hE
    · split
      · split
        · exact ⟨hfa.2.1, hfa.1, rfl⟩
        · exact ⟨hfa.2.1, hfa.1, rfl⟩
      · exact ⟨hfa.2.1, hfa.1, rfl⟩

/-- Witness for C7's scenario at a concrete 4000-byte buffer. -/
theorem c7_chunk_bound_and_scenario_witness :
    (utp_bufferevent_flush (fun _ c => (c.length : Int))
      { utp := true, utp_read_shutdown := false,
        bev := some { enRead := true, enWrite := true,
                      input := List.replicate 4000 7, output := [] },
        other_bev := false }).calls.map List.length = [1500, 1500, 1000] :=
  (c7_chunk_bound_and_scenario.2
    { utp := true, utp_read_shutdown := false,
      bev := some { enRead := true, enWrite := true,
                    input := List.replicate 4000 7, output := [] },
      other_bev := false }
    { enRead := true, enWrite := true, input := List.replicate 4000 7, output := [] }
    rfl (by rw [List.length_replicate])).1

end UtpBev
